import Mathlib

/-!
Verification of the Hierarchical Design-File Selection and Join Engine
(class `dumpPgf`, src/fusion_sdk/file/TsvFile/DumpPgf.cpp) against its
natural-language specification.  The definitions below are shallow
embeddings of the functions in DumpPgf.cpp; the theorems settle the
frozen claims about them.
-/

namespace DumpPgf

/-!  ## Taxonomy matcher: dumpPgf::splitTypes (DumpPgf.cpp lines 594-617)

The C++ routine repeatedly finds the next occurrence of the two-character
delimiter "->" starting from `substrBegin`.  A segment is pushed only when
it is non-empty: a delimiter found exactly at the current start position is
skipped (the `substrEnd != substrBegin` guard), and the final remainder is
pushed only when non-empty.  `splitGo` scans the character list left to
right, carrying the characters of the current segment (reversed) in `cur`;
this mirrors `std::string::find` locating the first "->" at or after the
current position.  -/

def splitGo : List Char → List Char → List (List Char)
  | [], cur => if cur = [] then [] else [cur.reverse]
  | [c], cur => [(c :: cur).reverse]
  | c1 :: c2 :: rest, cur =>
      if c1 = '-' ∧ c2 = '>' then
        if cur = [] then splitGo rest [] else cur.reverse :: splitGo rest []
      else splitGo (c2 :: rest) (c1 :: cur)

/-- Embedding of `dumpPgf::splitTypes`: split a raw type string on the fixed
two-character delimiter "->", never producing an empty segment. -/
def splitTypes (s : String) : List String :=
  (splitGo s.data []).map fun cs => String.mk cs

/-!  ## Id-list selection (dumpPgf::readIdFiles, lines 263-299, and the
probeset-id / probe-id branches of dumpPgf::writeMatches, lines 472-532)

`readIdFiles` accumulates the ids found in the id-list files, inserting
each id into a `std::map` as it is read and appending it to the request
vector only when the insertion succeeds, i.e. only on the first occurrence
of that id.  `dedupGo` models this with the set of already seen ids.

`writeMatches` then walks the surviving ids in order.  For each id it runs
`findBegin`/`findResultsCount` — an indexed equality lookup, modelled here
as filtering the source rows on the id column.  Zero results: `continue`
(skip silently).  More than one result: `Err::errAbort`, which throws
(`Err::setThrowStatus (true)` in the constructor), so nothing after it
runs; modelled as `Except.error` carrying the offending id.  Exactly one
result: the matching row group is dumped.  Source rows are modelled as
`Int × String`: the indexed id column paired with an opaque payload
standing for the rest of the row group.  -/

def dedupGo (seen : List Int) : List Int → List Int
  | [] => []
  | x :: xs => if x ∈ seen then dedupGo seen xs else x :: dedupGo (x :: seen) xs

/-- Embedding of the duplicate removal in `dumpPgf::readIdFiles`: keep the
first occurrence of each id, in the order read from the id files. -/
def dedupIds (ids : List Int) : List Int := dedupGo [] ids

/-- Indexed equality lookup (`findBegin`/`findResultsCount` with
`TSV_OP_EQ`): all source rows whose id column equals `id`. -/
def matchesOf (src : List (Int × String)) (id : Int) : List (Int × String) :=
  src.filter fun r => r.1 == id

/-- Embedding of the id-driven loops of `dumpPgf::writeMatches`: process the
requested ids in order; skip an id with no match, emit the payload of a
unique match, abort on a duplicated id. -/
def processIds (src : List (Int × String)) : List Int → Except Int (List String)
  | [] => .ok []
  | id :: rest =>
    match matchesOf src id with
    | [] => processIds src rest
    | [r] => (processIds src rest).map fun out => r.2 :: out
    | _ :: _ :: _ => .error id

/-- The payload emitted for a requested id: present iff the id has exactly
one match in the source. -/
def emitOf (src : List (Int × String)) (id : Int) : Option String :=
  match matchesOf src id with
  | [r] => some r.2
  | _ => none

/-!  ## Taxonomy selection (the probeset-type branch of
dumpPgf::writeMatches, lines 534-580)

With `--or` (`m_DumpUnion`), a record is dumped when some segment of its
split type field occurs in the user-requested list; by default (logical
and), a record is dumped when every user-requested string occurs among the
segments of its split type field.  -/

/-- Embedding of the per-record acceptance test of the probeset-type branch
of `dumpPgf::writeMatches`. -/
def acceptTypeQuery (userTypes : List String) (union : Bool) (raw : String) : Bool :=
  if union then (splitTypes raw).any fun t => userTypes.contains t
  else userTypes.all fun t => (splitTypes raw).contains t

/-- Embedding of the overall per-record acceptance of
`dumpPgf::writeMatches` when no id files are given: with an empty
requested-type list the branch taken is the full dump, which accepts every
record; otherwise the taxonomy test decides. -/
def probesetAccepted (userTypes : List String) (union : Bool) (raw : String) : Bool :=
  if userTypes = [] then true else acceptTypeQuery userTypes union raw

/-!  ## Schema checks and output header (dumpPgf::openInputFiles, lines
318-426, and dumpPgf::writeOutputHeader, lines 454-460)

`openInputFiles` binds `probeset_id` at level 0 and, unless probesets-only
was selected, `probe_id` at level 2, both with `TSV_BIND_REQUIRED`; a
required column that is absent makes the open of the source fail (the
record-source contract assumed by the engine), reported here as
`sourceOpenError`.  The column loops then push every column name of each
retained level onto `m_OutputColNames`, asserting that the first level-0
column is `probeset_id` and (full dump only) that the first level-2 column
is `probe_id`; a `type` column among the non-id level-0 columns is
recorded, and its absence is fatal when probeset types were requested.
With probesets-only, only level-0 names are retained; with a clf file and
a full dump, the names "x" and "y" are appended last.  The function below
returns the output column-name list exactly as `writeOutputHeader` prints
it (tab-joined), or the first fatal setup error in code order.  -/

inductive SetupError
  | sourceOpenError
  | schemaError
  | missingColumnError
deriving DecidableEq

/-- The positional assert of `openInputFiles`: the first column of a level,
when the level has any column, must be the identifier column. -/
def checkFirst (cols : List String) (idName : String) : Bool :=
  match cols with
  | [] => true
  | c :: _ => c = idName

/-- Detection of the optional `type` column among the non-identifier
level-0 columns (lines 372-378). -/
def hasTypeCol (lvl0 : List String) : Bool :=
  (lvl0.filter fun c => c ≠ "probeset_id").contains "type"

/-- Embedding of the setup in `dumpPgf::openInputFiles`: validate the
schemas of the three levels and build the output column-name list. -/
def openInputFiles (lvl0 lvl1 lvl2 : List String) (probesetOnly clf : Bool)
    (probesetTypes : List String) : Except SetupError (List String) :=
  if lvl0.contains "probeset_id" = false then .error .sourceOpenError
  else if probesetOnly = false ∧ lvl2.contains "probe_id" = false then .error .sourceOpenError
  else if checkFirst lvl0 "probeset_id" = false then .error .schemaError
  else if probesetTypes ≠ [] ∧ hasTypeCol lvl0 = false then .error .missingColumnError
  else if probesetOnly then .ok lvl0
  else if checkFirst lvl2 "probe_id" = false then .error .schemaError
  else .ok (lvl0 ++ lvl1 ++ lvl2 ++ if clf then ["x", "y"] else [])

/-!  ## Coordinate resolution (dumpPgf::getCoordsByIndex, lines 683-705)
and coordinate rendering (tail of dumpPgf::dumpProbeData, lines 657-668)

The indexed resolver looks the probe id up in the clf source.  More than
one match: `Err::errAbort` with a non-unique-index message.  Exactly one
match: `m_ClfX`/`m_ClfY` take the x and y values of the matching row.  No
match: both are set to -1.  The row writer then emits two tab-separated
fields, printing each coordinate only when it is non-negative, so a
negative value renders as a blank field.  -/

structure ClfRow where
  probeId : Int
  x : Int
  y : Int
deriving DecidableEq

/-- The sentinel stored in `m_ClfX`/`m_ClfY` when no clf row matches. -/
def undefinedCoord : Int := -1

/-- Indexed equality lookup in the clf source (`findBegin` with
`TSV_OP_EQ` over the `probe_id` index). -/
def matchesClf (clf : List ClfRow) (pid : Int) : List ClfRow :=
  clf.filter fun r => r.probeId == pid

/-- Embedding of `dumpPgf::getCoordsByIndex`: the resulting
`(m_ClfX, m_ClfY)` pair, or the fatal non-unique-index error. -/
def getCoordsByIndex (clf : List ClfRow) (pid : Int) : Except Int (Int × Int) :=
  match matchesClf clf pid with
  | [] => .ok (undefinedCoord, undefinedCoord)
  | [r] => .ok (r.x, r.y)
  | _ :: _ :: _ => .error pid

/-- Rendering of one coordinate field in `dumpPgf::dumpProbeData`: the
numeral when the value is non-negative, a blank field otherwise. -/
def renderCoord (v : Int) : String :=
  if 0 ≤ v then toString v else ""

/-- The two coordinate fields appended to a full-dump output row when a
clf file is in use. -/
def coordFields (x y : Int) : List String :=
  [renderCoord x, renderCoord y]

/-!  ## Unfiltered dump (the final branch of dumpPgf::writeMatches, lines
582-588, with dumpPgf::dumpProbesetData, lines 622-637, and
dumpPgf::dumpProbeData, lines 642-670)

The hierarchical source: probesets at level 0, atoms at level 1, probes at
level 2.  `dumpProbesetData` writes one line for the probeset itself in
probesets-only mode; otherwise it iterates every atom under the probeset
and every probe under the atom, writing one line per probe via
`dumpProbeData`.  The unfiltered branch calls it once per level-0 record
in stored order.  -/

structure Probe where
  id : Int
  data : List String

structure Atom where
  data : List String
  probes : List Probe

structure Probeset where
  id : Int
  data : List String
  atoms : List Atom

/-- The probesets-only output line: probeset id then the remaining level-0
fields (lines 627-630). -/
def probesetRow (ps : Probeset) : List String :=
  toString ps.id :: ps.data

/-- The full-dump output line for one probe (`dumpPgf::dumpProbeData`):
level-0 fields, level-1 fields, probe id, remaining level-2 fields, and
the two coordinate fields when a clf file is in use. -/
def probeRow (coordJoin : Option (Int → Int × Int)) (ps : Probeset) (a : Atom)
    (p : Probe) : List String :=
  (toString ps.id :: ps.data) ++ a.data ++ (toString p.id :: p.data) ++
    (match coordJoin with
     | none => []
     | some f => coordFields (f p.id).1 (f p.id).2)

/-- Embedding of `dumpPgf::dumpProbesetData`: the lines written for one
accepted probeset. -/
def dumpProbesetData (coordJoin : Option (Int → Int × Int)) (probesetOnly : Bool)
    (ps : Probeset) : List (List String) :=
  if probesetOnly then [probesetRow ps]
  else ps.atoms.flatMap fun a => a.probes.map fun p => probeRow coordJoin ps a p

/-- Embedding of the unfiltered branch of `dumpPgf::writeMatches`: every
level-0 record is accepted, in stored order. -/
def writeMatchesNone (coordJoin : Option (Int → Int × Int)) (probesetOnly : Bool)
    (src : List Probeset) : List (List String) :=
  src.flatMap (dumpProbesetData coordJoin probesetOnly)

/-- The number of leaf (probe) records under one probeset. -/
def leafCount (ps : Probeset) : Nat :=
  (ps.atoms.map fun a => a.probes.length).sum

/-!  ## Constructor validation (dumpPgf::dumpPgf, lines 43-235)

In code order: the pgf file name is required (line 174); at most one of
probeset types, probeset-id files and probe-id files may be non-empty
(lines 199-210); probesets-only may not be combined with probe-id files
(lines 216-218); an output file name is required and is opened for writing
(lines 220-228).  `Err::errAbort` throws, so a failed check stops the
constructor; the fallible opening of the output file is modelled by the
`canOpen` oracle.  Input files are only opened later, in `run()`, which is
reached only when the constructor returned normally.  -/

structure Options where
  pgfFile : String
  clfFile : String
  probesetTypes : List String
  probesetIdFiles : List String
  probeIdFiles : List String
  probesetOnly : Bool
  dumpUnion : Bool
  outFile : String

inductive CtorError
  | noPgfFile
  | configMix
  | probesetOnlyWithProbeIds
  | noOutFile
  | outFileOpenError
deriving DecidableEq

/-- The count of selection option kinds supplied (lines 200-203). -/
def optionsChosen (o : Options) : Nat :=
  (if o.probesetTypes = [] then 0 else 1) +
  (if o.probesetIdFiles = [] then 0 else 1) +
  (if o.probeIdFiles = [] then 0 else 1)

/-- Embedding of the validation sequence of the `dumpPgf` constructor. -/
def dumpPgfCtor (canOpen : String → Bool) (o : Options) : Except CtorError Options :=
  if o.pgfFile = "" then .error .noPgfFile
  else if 1 < optionsChosen o then .error .configMix
  else if o.probesetOnly ∧ o.probeIdFiles ≠ [] then .error .probesetOnlyWithProbeIds
  else if o.outFile = "" then .error .noOutFile
  else if canOpen o.outFile = false then .error .outFileOpenError
  else .ok o

end DumpPgf

namespace DumpPgf

/-! ## Theorems -/

theorem splitGo_ne_nil (l cur : List Char) : ∀ s ∈ splitGo l cur, s ≠ [] := by
  induction l, cur using splitGo.induct <;> intro s hs <;> simp_all [splitGo]
  · rename_i hand hcur ih
    rcases hs with h1 | h1
    · simp [h1, hcur]
    · exact ih s h1
  · rename_i himp ih
    rw [if_neg (fun hc => himp hc.1 hc.2)] at hs
    exact ih s hs

/-- C2: for every input string, `splitTypes` returns no empty segment,
whatever the position or repetition of the "->" delimiter; in particular
"A->->B", "->A->B" and "A->B->" all split to ["A", "B"], and the empty
string splits to the empty list. -/
theorem splitTypes_no_empty_segments :
    (∀ s : String, ∀ seg ∈ splitTypes s, seg ≠ "") ∧
    splitTypes "A->->B" = ["A", "B"] ∧
    splitTypes "->A->B" = ["A", "B"] ∧
    splitTypes "A->B->" = ["A", "B"] ∧
    splitTypes "" = [] := by
  refine ⟨?_, by decide, by decide, by decide, by decide⟩
  intro s seg hseg h
  simp only [splitTypes, List.mem_map] at hseg
  obtain ⟨cs, hcs, rfl⟩ := hseg
  exact splitGo_ne_nil s.data [] cs hcs (by simpa using congrArg String.data h)

/-- Witness for C2 at a concrete input. -/
theorem splitTypes_no_empty_segments_witness : ("A" : String) ≠ "" :=
  splitTypes_no_empty_segments.1 "A->->B" "A" (by decide)

theorem mem_dedupGo (ids : List Int) : ∀ seen x, x ∈ dedupGo seen ids ↔ x ∈ ids ∧ x ∉ seen := by
  induction ids with
  | nil => intro seen x; simp [dedupGo]
  | cons a as ih =>
    intro seen x
    by_cases h : a ∈ seen
    · simp only [dedupGo, if_pos h, ih, List.mem_cons]
      constructor
      · rintro ⟨h1, h2⟩; exact ⟨Or.inr h1, h2⟩
      · rintro ⟨h1 | h1, h2⟩
        · subst h1; exact absurd h h2
        · exact ⟨h1, h2⟩
    · simp only [dedupGo, if_neg h, List.mem_cons, ih]
      constructor
      · rintro (rfl | ⟨h1, h2⟩)
        · exact ⟨Or.inl rfl, h⟩
        · exact ⟨Or.inr h1, fun hx => h2 (Or.inr hx)⟩
      · rintro ⟨rfl | h1, h2⟩
        · exact Or.inl rfl
        · by_cases hxa : x = a
          · exact Or.inl hxa
          · exact Or.inr ⟨h1, by simp [hxa, h2]⟩

theorem nodup_dedupGo (ids : List Int) : ∀ seen, (dedupGo seen ids).Nodup := by
  induction ids with
  | nil => intro seen; simp [dedupGo]
  | cons a as ih =>
    intro seen
    by_cases h : a ∈ seen
    · simpa [dedupGo, if_pos h] using ih seen
    · simp only [dedupGo, if_neg h, List.nodup_cons]
      refine ⟨fun hmem => ?_, ih _⟩
      exact ((mem_dedupGo as _ a).1 hmem).2 (List.mem_cons_self a _)

theorem pairwise_dedupGo (ids : List Int) :
    ∀ seen, (dedupGo seen ids).Pairwise fun x y => ids.indexOf x < ids.indexOf y := by
  induction ids with
  | nil => intro seen; simp [dedupGo]
  | cons a as ih =>
    intro seen
    have lift : ∀ seen', a ∈ seen' →
        ((dedupGo seen' as).Pairwise fun x y => as.indexOf x < as.indexOf y) →
        ((dedupGo seen' as).Pairwise fun x y => (a :: as).indexOf x < (a :: as).indexOf y) := by
      intro seen' ha hp
      refine List.Pairwise.imp_of_mem ?_ hp
      intro x y hx hy hlt
      have hxa : a ≠ x := fun h => ((mem_dedupGo as seen' x).1 hx).2 (h ▸ ha)
      have hya : a ≠ y := fun h => ((mem_dedupGo as seen' y).1 hy).2 (h ▸ ha)
      rw [List.indexOf_cons_ne _ hxa, List.indexOf_cons_ne _ hya]
      omega
    by_cases h : a ∈ seen
    · rw [dedupGo, if_pos h]
      exact lift seen h (ih seen)
    · rw [dedupGo, if_neg h]
      refine List.Pairwise.cons ?_ (lift (a :: seen) (List.mem_cons_self a _) (ih _))
      intro y hy
      have hya : a ≠ y := fun hh =>
        ((mem_dedupGo as _ y).1 hy).2 (hh ▸ List.mem_cons_self a _)
      rw [List.indexOf_cons_self, List.indexOf_cons_ne _ hya]
      omega

theorem processIds_ok (src : List (Int × String)) (l : List Int)
    (h : ∀ e ∈ l, (matchesOf src e).length ≤ 1) :
    processIds src l = .ok (l.filterMap (emitOf src)) := by
  induction l with
  | nil => simp [processIds]
  | cons a as ih =>
    have ha := h a (List.mem_cons_self a _)
    have ih' := ih fun e he => h e (List.mem_cons_of_mem _ he)
    rw [processIds]
    match hm : matchesOf src a with
    | [] => simp [List.filterMap_cons, emitOf, hm, ih']
    | [r] => simp [List.filterMap_cons, emitOf, hm, ih', Except.map]
    | _ :: _ :: _ => rw [hm] at ha; simp at ha

theorem processIds_error (src : List (Int × String)) (d : Int) (post : List Int)
    (hd : 1 < (matchesOf src d).length) :
    ∀ pre, (∀ e ∈ pre, (matchesOf src e).length ≤ 1) →
      processIds src (pre ++ d :: post) = .error d := by
  intro pre
  induction pre with
  | nil =>
    intro _
    rw [List.nil_append, processIds]
    match hm : matchesOf src d with
    | [] => rw [hm] at hd; simp at hd
    | [r] => rw [hm] at hd; simp at hd
    | _ :: _ :: _ => rfl
  | cons a as ih =>
    intro h
    have ha := h a (List.mem_cons_self a _)
    have ih' := ih fun e he => h e (List.mem_cons_of_mem _ he)
    rw [List.cons_append, processIds]
    match hm : matchesOf src a with
    | [] => exact ih'
    | [r] => rw [ih']; rfl
    | _ :: _ :: _ => rw [hm] at ha; simp at ha

/-- C1: with identifier-list selection, the requested ids are deduplicated
keeping the first occurrence of each id in caller order (captured by: no
duplicate survives, exactly the requested ids survive, and the survivors
are ordered by the index of their first occurrence); then each surviving id
is looked up in order: an id with no match is skipped silently, an id with
exactly one match has its row group emitted, and the first id with more
than one match aborts the run with a non-unique-index error, with no id
after it ever looked up (the outcome does not depend on the remaining
tail). -/
theorem idSelection_spec (src : List (Int × String)) (ids : List Int) :
    ((dedupIds ids).Nodup ∧ (∀ x, x ∈ dedupIds ids ↔ x ∈ ids) ∧
      (dedupIds ids).Pairwise fun x y => ids.indexOf x < ids.indexOf y) ∧
    ((∀ e ∈ dedupIds ids, (matchesOf src e).length ≤ 1) →
      processIds src (dedupIds ids) = .ok ((dedupIds ids).filterMap (emitOf src))) ∧
    (∀ pre d post, dedupIds ids = pre ++ d :: post →
      (∀ e ∈ pre, (matchesOf src e).length ≤ 1) →
      1 < (matchesOf src d).length →
      processIds src (dedupIds ids) = .error d ∧
        ∀ tail, processIds src (pre ++ d :: tail) = .error d) := by
  refine ⟨⟨nodup_dedupGo ids [], ?_, pairwise_dedupGo ids []⟩, ?_, ?_⟩
  · intro x; simpa using mem_dedupGo ids [] x
  · intro h; exact processIds_ok src _ h
  · intro pre d post hsplit hpre hd
    refine ⟨?_, fun tail => processIds_error src d tail hd pre hpre⟩
    rw [hsplit]
    exact processIds_error src d post hd pre hpre

/-- Witness for C1: the spec scenario with requested ids [5, 5, 9, 42],
where id 5 occurs once, id 9 twice and id 42 not at all: the run fails on
id 9. -/
theorem idSelection_spec_witness :
    processIds [(5, "A"), (9, "B"), (9, "C"), (7, "D")] (dedupIds [5, 5, 9, 42]) =
      .error 9 :=
  ((idSelection_spec [(5, "A"), (9, "B"), (9, "C"), (7, "D")] [5, 5, 9, 42]).2.2
    [5] 9 [42] (by decide) (by decide) (by decide)).1

/-- C3: under taxonomy-string selection with a non-empty requested-type
list, a record is accepted iff, in Or mode, at least one requested string
equals some segment of the split taxonomy path, and in And mode (the
default), every requested string equals some segment of that path. -/
theorem typeQuery_accept_iff (userTypes : List String) (union : Bool) (raw : String)
    (hne : userTypes ≠ []) :
    acceptTypeQuery userTypes union raw = true ↔
      (if union then ∃ t ∈ userTypes, t ∈ splitTypes raw
       else ∀ t ∈ userTypes, t ∈ splitTypes raw) := by
  cases union with
  | true =>
    simp only [acceptTypeQuery, if_true, List.any_eq_true]
    constructor
    · rintro ⟨s, h1, h2⟩
      exact ⟨s, by simpa using h2, h1⟩
    · rintro ⟨t, h1, h2⟩
      exact ⟨t, h2, by simpa using h1⟩
  | false =>
    simp only [acceptTypeQuery, Bool.false_eq_true, if_false, List.all_eq_true]
    constructor
    · intro h t ht
      simpa using h t ht
    · intro h t ht
      simpa using h t ht

/-- Witness for C3: the spec scenario, And mode with requested types
["main", "rescue"] accepting a record of type "main->rescue->v1". -/
theorem typeQuery_accept_iff_witness :
    acceptTypeQuery ["main", "rescue"] false "main->rescue->v1" = true :=
  (typeQuery_accept_iff ["main", "rescue"] false "main->rescue->v1" (by decide)).mpr
    (by decide)

/-- C4: any record accepted under And mode is accepted under Or mode with
the same requested-type list (the And-selected set is a subset of the
Or-selected set); with an empty requested list both modes accept every
record. -/
theorem and_accept_subset_or_accept (userTypes : List String) (raw : String)
    (h : probesetAccepted userTypes false raw = true) :
    probesetAccepted userTypes true raw = true := by
  by_cases hne : userTypes = []
  · simp [probesetAccepted, hne]
  · simp only [probesetAccepted, if_neg hne, acceptTypeQuery, Bool.false_eq_true,
      if_false, List.all_eq_true] at h
    obtain ⟨t, ht⟩ := List.exists_mem_of_ne_nil userTypes hne
    simp only [probesetAccepted, if_neg hne, acceptTypeQuery, if_true, List.any_eq_true]
    exact ⟨t, by simpa using h t ht, by simpa using ht⟩

/-- Witness for C4: the spec scenario, requested types ["main", "rescue"]
in Or mode accept the record of type "main->rescue->v1" accepted by And
mode. -/
theorem and_accept_subset_or_accept_witness :
    probesetAccepted ["main", "rescue"] true "main->rescue->v1" = true :=
  and_accept_subset_or_accept ["main", "rescue"] "main->rescue->v1" (by decide)

/-- C5: if the first level-0 column is not "probeset_id", or, in full-dump
mode, the first level-2 column is not "probe_id", setup fails — with a
schema error whenever the earlier setup steps (required columns present,
type column available when needed) pass — and a mispositioned identifier
column is never silently tolerated. -/
theorem schema_guard (lvl0 lvl1 lvl2 : List String) (po clf : Bool) (pt : List String) :
    (∀ c rest, lvl0 = c :: rest → c ≠ "probeset_id" →
      (openInputFiles lvl0 lvl1 lvl2 po clf pt).isOk = false ∧
      ("probeset_id" ∈ lvl0 → (po = false → "probe_id" ∈ lvl2) →
        openInputFiles lvl0 lvl1 lvl2 po clf pt = .error .schemaError)) ∧
    (∀ c rest, lvl2 = c :: rest → c ≠ "probe_id" →
      (openInputFiles lvl0 lvl1 lvl2 false clf pt).isOk = false ∧
      ("probeset_id" ∈ lvl0 → "probe_id" ∈ lvl2 → checkFirst lvl0 "probeset_id" = true →
       (pt = [] ∨ hasTypeCol lvl0 = true) →
        openInputFiles lvl0 lvl1 lvl2 false clf pt = .error .schemaError)) := by
  constructor
  · rintro c rest rfl hc
    have hcf : checkFirst (c :: rest) "probeset_id" = false := by
      simp [checkFirst, hc]
    constructor
    · unfold openInputFiles
      split_ifs <;> simp_all [Except.isOk, Except.toBool]
    · intro hmem hmem2
      unfold openInputFiles
      split_ifs <;> simp_all
  · rintro c rest rfl hc
    have hcf : checkFirst (c :: rest) "probe_id" = false := by
      simp [checkFirst, hc]
    constructor
    · unfold openInputFiles
      split_ifs <;> simp_all [Except.isOk, Except.toBool]
    · intro hmem hmem2 hcf0 hty
      unfold openInputFiles
      split_ifs <;> simp_all

/-- Witness for C5: a parent schema whose first column is "type" rather
than the identifier fails setup with a schema error. -/
theorem schema_guard_witness :
    openInputFiles ["type", "probeset_id"] [] ["probe_id"] true false [] =
      .error .schemaError :=
  ((schema_guard ["type", "probeset_id"] [] ["probe_id"] true false []).1
    "type" ["probeset_id"] rfl (by decide)).2 (by decide) (by decide)

theorem openInputFiles_ok_parent (l0 l1 l2 : List String) (clf : Bool)
    (pt : List String) (hdr : List String)
    (h : openInputFiles l0 l1 l2 true clf pt = .ok hdr) : hdr = l0 := by
  unfold openInputFiles at h
  split_ifs at h <;> simp_all

theorem openInputFiles_ok_full (l0 l1 l2 : List String) (clf : Bool)
    (pt : List String) (hdr : List String)
    (h : openInputFiles l0 l1 l2 false clf pt = .ok hdr) :
    ∃ r, l2 = "probe_id" :: r ∧
      hdr = l0 ++ l1 ++ ("probe_id" :: r) ++ (if clf then ["x", "y"] else []) := by
  unfold openInputFiles at h
  split_ifs at h with ha hb hc hd <;> simp_all
  all_goals rename_i hcf2 hclf
  all_goals
    rcases l2 with _ | ⟨c2, r⟩ <;>
      first
        | exact absurd hb (List.not_mem_nil _)
        | (have hc2 : c2 = "probe_id" := by
             by_contra hne
             simp [checkFirst, hne] at hcf2
           subst hc2
           refine ⟨r, rfl, ?_⟩
           simp [hclf, ← h])

/-- C6: for the same source schemas, the parent-only output header is a
strict initial segment of the full-dump output header: the parent-level
column names come first, identical and in the same order, and the
full-dump header appends the mid-level columns, the leaf identifier, the
remaining leaf columns, and — exactly when the coordinate join is enabled
— the injected names "x" and "y" at the end. -/
theorem header_strict (lvl0 lvl1 lvl2 : List String) (clf : Bool)
    (pt : List String) (hdrP hdrF : List String)
    (h1 : openInputFiles lvl0 lvl1 lvl2 true clf pt = .ok hdrP)
    (h2 : openInputFiles lvl0 lvl1 lvl2 false clf pt = .ok hdrF) :
    hdrP = lvl0 ∧ hdrP <+: hdrF ∧ hdrP ≠ hdrF ∧
    ∃ leafRest, lvl2 = "probe_id" :: leafRest ∧
      hdrF = hdrP ++ lvl1 ++ ("probe_id" :: leafRest) ++ (if clf then ["x", "y"] else []) := by
  have hp := openInputFiles_ok_parent lvl0 lvl1 lvl2 clf pt hdrP h1
  obtain ⟨r, hl2, hf⟩ := openInputFiles_ok_full lvl0 lvl1 lvl2 clf pt hdrF h2
  subst hp hf hl2
  refine ⟨rfl, ⟨lvl1 ++ ("probe_id" :: r) ++ (if clf then ["x", "y"] else []), by simp⟩,
    ?_, r, rfl, rfl⟩
  intro he
  have hlen := congrArg List.length he
  simp [List.length_append] at hlen

/-- Witness for C6 on concrete pgf-like schemas with the coordinate join
enabled. -/
theorem header_strict_witness :
    (["probeset_id", "type", "probeset_name"] : List String) <+:
      ["probeset_id", "type", "probeset_name", "atom_id", "probe_id", "gc_count",
        "x", "y"] :=
  (header_strict ["probeset_id", "type", "probeset_name"] ["atom_id"]
    ["probe_id", "gc_count"] true [] ["probeset_id", "type", "probeset_name"]
    ["probeset_id", "type", "probeset_name", "atom_id", "probe_id", "gc_count",
      "x", "y"] (by rfl) (by rfl)).2.1

/-- C7: for a leaf id resolved through the indexed coordinate strategy,
zero matches yield the undefined result and two blank coordinate fields
(never a numeral substitute), exactly one match yields the coordinates of
that match, and more than one match aborts the run with a
non-unique-index error. -/
theorem coordsByIndex_spec (clf : List ClfRow) (pid : Int) :
    (matchesClf clf pid = [] →
      getCoordsByIndex clf pid = .ok (undefinedCoord, undefinedCoord) ∧
      coordFields undefinedCoord undefinedCoord = ["", ""]) ∧
    (∀ r, matchesClf clf pid = [r] → getCoordsByIndex clf pid = .ok (r.x, r.y)) ∧
    (1 < (matchesClf clf pid).length → getCoordsByIndex clf pid = .error pid) := by
  refine ⟨fun h => ⟨?_, by decide⟩, fun r h => ?_, fun h => ?_⟩
  · rw [getCoordsByIndex, h]
  · rw [getCoordsByIndex, h]
  · rw [getCoordsByIndex]
    match hm : matchesClf clf pid with
    | [] => rw [hm] at h; simp at h
    | [r] => rw [hm] at h; simp at h
    | _ :: _ :: _ => rfl

/-- Witness for C7: a leaf id absent from the clf source resolves to the
undefined coordinates, rendered as two blank fields. -/
theorem coordsByIndex_spec_witness :
    getCoordsByIndex [⟨1, 3, 4⟩] 9 = .ok (undefinedCoord, undefinedCoord) ∧
    coordFields undefinedCoord undefinedCoord = ["", ""] :=
  (coordsByIndex_spec [⟨1, 3, 4⟩] 9).1 (by decide)

theorem writeMatchesNone_parent (coordJoin : Option (Int → Int × Int))
    (src : List Probeset) :
    writeMatchesNone coordJoin true src = src.map probesetRow := by
  induction src with
  | nil => rfl
  | cons ps rest ih =>
    simp only [writeMatchesNone, List.flatMap_cons, dumpProbesetData, if_pos] at ih ⊢
    simp [ih]

theorem length_dumpProbesetData_full (coordJoin : Option (Int → Int × Int))
    (ps : Probeset) :
    (dumpProbesetData coordJoin false ps).length = leafCount ps := by
  simp only [dumpProbesetData, Bool.false_eq_true, if_false, leafCount]
  induction ps.atoms with
  | nil => rfl
  | cons a as iha => simp [List.flatMap_cons, iha]

/-- C8: with no selection filter, the engine accepts every parent record in
stored order, emitting exactly one data line per parent record in
parent-only mode (the lines are exactly the parent rows, in source order)
and exactly one data line per leaf record in full-dump mode. -/
theorem full_dump_counts (coordJoin : Option (Int → Int × Int)) (src : List Probeset) :
    writeMatchesNone coordJoin true src = src.map probesetRow ∧
    (writeMatchesNone coordJoin true src).length = src.length ∧
    (writeMatchesNone coordJoin false src).length = (src.map leafCount).sum := by
  refine ⟨writeMatchesNone_parent coordJoin src,
    by simp [writeMatchesNone_parent coordJoin src], ?_⟩
  induction src with
  | nil => rfl
  | cons ps rest ih =>
    simp only [writeMatchesNone, List.flatMap_cons, List.length_append, List.map_cons,
      List.sum_cons] at ih ⊢
    rw [ih, length_dumpProbesetData_full]

/-- C9: a configuration that enables parent-only emission and supplies at
least one probe-id list file is rejected fatally during constructor
validation; the outcome does not depend on the file system (nothing is
opened first), and when no other validation rule is violated the error is
precisely the probesets-only/probe-ids incompatibility. -/
theorem probesetOnly_probeIds_rejected (o : Options)
    (h1 : o.probesetOnly = true) (h2 : o.probeIdFiles ≠ []) :
    (∀ canOpen, (dumpPgfCtor canOpen o).isOk = false) ∧
    (∀ canOpen canOpen', dumpPgfCtor canOpen o = dumpPgfCtor canOpen' o) ∧
    (o.pgfFile ≠ "" → o.probesetTypes = [] → o.probesetIdFiles = [] →
      ∀ canOpen, dumpPgfCtor canOpen o = .error .probesetOnlyWithProbeIds) := by
  have hstop : ∀ canOpen, dumpPgfCtor canOpen o = .error .noPgfFile ∨
      dumpPgfCtor canOpen o = .error .configMix ∨
      dumpPgfCtor canOpen o = .error .probesetOnlyWithProbeIds := by
    intro canOpen
    unfold dumpPgfCtor
    split_ifs with ha hb hc
    all_goals first
      | exact Or.inl rfl
      | exact Or.inr (Or.inl rfl)
      | exact Or.inr (Or.inr rfl)
      | exact absurd ⟨h1, h2⟩ hc
  refine ⟨fun c => ?_, fun c c' => ?_, fun hp ht hs c => ?_⟩
  · rcases hstop c with h | h | h <;> simp [h, Except.isOk, Except.toBool]
  · unfold dumpPgfCtor
    split_ifs with ha hb hc
    all_goals first
      | rfl
      | exact absurd ⟨h1, h2⟩ hc
  · unfold dumpPgfCtor
    rw [if_neg hp, if_neg, if_pos ⟨h1, h2⟩]
    simp [optionsChosen, ht, hs, h2]

/-- Witness for C9 at a concrete configuration combining probesets-only
with a probe-id list file. -/
theorem probesetOnly_probeIds_rejected_witness :
    dumpPgfCtor (fun _ => true)
      ⟨"file.pgf", "", [], [], ["probes.txt"], true, false, "out.txt"⟩ =
      .error .probesetOnlyWithProbeIds :=
  (probesetOnly_probeIds_rejected
    ⟨"file.pgf", "", [], [], ["probes.txt"], true, false, "out.txt"⟩
    rfl (by decide)).2.2 (by decide) rfl rfl (fun _ => true)

/-- C10: the undefined coordinate result is encoded as a negative value,
and the row writer blanks each coordinate field independently whenever the
resolved value is negative; hence a unique clf match whose stored x value
is negative renders a blank x field even though a match exists. -/
theorem negative_coord_blank (clf : List ClfRow) (pid : Int) (r : ClfRow)
    (hm : matchesClf clf pid = [r]) (hx : r.x < 0) :
    getCoordsByIndex clf pid = .ok (r.x, r.y) ∧
    coordFields r.x r.y = ["", renderCoord r.y] ∧
    undefinedCoord < 0 ∧ (∀ v : Int, v < 0 → renderCoord v = "") := by
  refine ⟨by rw [getCoordsByIndex, hm], ?_, by decide, fun v hv => ?_⟩
  · simp [coordFields, renderCoord, not_le.mpr hx]
  · simp [renderCoord, not_le.mpr hv]

/-- Witness for C10: a clf source with a unique match at probe id 5 whose
stored x value is negative renders a blank x field next to a numeric y
field. -/
theorem negative_coord_blank_witness :
    getCoordsByIndex [⟨5, -3, 7⟩] 5 = .ok (-3, 7) ∧
    coordFields (-3) 7 = ["", renderCoord 7] :=
  ⟨(negative_coord_blank [⟨5, -3, 7⟩] 5 ⟨5, -3, 7⟩ (by decide) (by decide)).1,
   (negative_coord_blank [⟨5, -3, 7⟩] 5 ⟨5, -3, 7⟩ (by decide) (by decide)).2.1⟩

end DumpPgf
